import Mathlib

/-!
Verification of the Go scraper-worker orchestration core of jobspy-api.

The definitions below are shallow embeddings of the Go source:
- string helpers `contains` / `indexOf` (worker.go, part_000 lines 366-382),
- `Worker.ProcessTask` retry state machine (part_000 lines 163-245),
- `Worker.calculateBackoffDelay` with 64-bit wraparound (part_000 lines 298-315),
- task validation (`ScrapingTask.Validate`, `JobSpyAPIClient.ValidateParams`),
- HTTP status classification in `callJobSpyAPI`,
- `HealthMonitor.calculateHealthStatus`, `cleanOldEntries`, `updateTaskMetrics`,
- `Orchestrator.processNextTask` result publication,
- pointer/copy semantics of the metrics accessors.

Machine integers (Go `int`/`time.Duration`, both 64-bit) are modelled as `Int`
with explicit wraparound (`int64wrap`) where overflow matters.  Go strings are
modelled as `List Char` for the byte-level helpers and as Lean `String` for
opaque identifiers.  Wall-clock instants are `Int` nanosecond timestamps.
-/

namespace JobSpy

/-! ## String helpers (part_000 lines 366-382)

`indexOf(haystack, needle)` in Go is
`for i := 0; i <= len(h)-len(n); i++ { if h[i:i+len(n)] == n { return i } }; return -1`.
We walk the suffix `s = h.drop i` structurally; the loop guard
`i <= len(h)-len(n)` (over Go ints) is equivalent to `n.length ≤ s.length`,
and the slice `h[i:i+len(n)]` is `s.take n.length`. -/

def indexOfAux (n : List Char) : List Char → Nat → Int
  | s, i =>
    if n.length ≤ s.length then
      if s.take n.length == n then (i : Int)
      else
        match s with
        | [] => -1
        | _ :: rest => indexOfAux n rest (i + 1)
    else -1

def indexOf (h n : List Char) : Int := indexOfAux n h 0

/-- Embeds Go `contains` (part_000 lines 366-373): length guard, equality,
then prefix / suffix / `indexOf ≥ 0` checks. -/
def contains (h n : List Char) : Bool :=
  decide (n.length ≤ h.length) &&
    (h == n ||
      (decide (n.length < h.length) &&
        (h.take n.length == n ||
          h.drop (h.length - n.length) == n ||
          decide (0 ≤ indexOf h n))))

/-! ## Worker error model and retry classification (part_000 lines 318-357) -/

/-- The fallback patterns checked by `Worker.isRetryableError`
(part_000 lines 340-348). -/
def retryablePatterns : List (List Char) :=
  [("connection refused").toList,
   ("timeout").toList,
   ("temporary failure").toList,
   ("service unavailable").toList,
   ("internal server error").toList,
   ("bad gateway").toList,
   ("gateway timeout").toList]

/-- Errors observed by the Worker retry loop, embedding the cases
distinguished by `Worker.isRetryableError`: a `scraper.ScrapingError` (with
its `Type`, `StatusCode` and `Retryable` fields), a `scraper.ValidationError`,
the two Go context errors, and any other error represented by its message
bytes (only the message participates in the fallback pattern matching). -/
inductive WorkerError where
  | scraping (errType : String) (statusCode : Int) (retryable : Bool)
  | validation (field message : String)
  | ctxDeadlineExceeded
  | ctxCanceled
  | other (message : List Char)
deriving DecidableEq

/-- Embeds `Worker.isRetryableError` (part_000 lines 318-357): a
`ScrapingError` is retried per its `Retryable` flag; context and validation
errors are never retried; any other error is retried iff its message contains
one of `retryablePatterns`. -/
def isRetryableError : WorkerError → Bool
  | .scraping _ _ retryable => retryable
  | .ctxDeadlineExceeded => false
  | .ctxCanceled => false
  | .validation _ _ => false
  | .other message => retryablePatterns.any (fun p => contains message p)

/-! ## Task / result protocol (part_000 lines 845-994 in the protocol file) -/

/-- The task-parameter fields inspected by validation; the optional filter
fields (job type, remote flag, salary, proxy, user agent, delay range, page
limit) are never read by validation or the retry machine and are omitted. -/
structure ScrapingTaskParams where
  searchTerm : String
  location : String
  resultsWanted : Int
deriving DecidableEq

/-- `protocol.ScrapingTask` restricted to the fields the worker logic reads.
`timeout` is the per-attempt timeout in seconds (Go int); `maxRetries` is the
retry budget, modelled as `Nat` (the configured budget is a count). -/
structure ScrapingTask where
  taskID : String
  scraperType : String
  params : ScrapingTaskParams
  timeout : Int
  maxRetries : Nat
deriving DecidableEq

/-- Embeds `(*ScrapingTask).Validate` (protocol file lines 974-994); returns
the first error message, or `none` on success, mirroring the Go early
returns. -/
def ScrapingTask.Validate (t : ScrapingTask) : Option String :=
  if t.taskID = "" then some "task_id is required"
  else if t.scraperType = "" then some "scraper_type is required"
  else if t.params.searchTerm = "" then some "search_term is required"
  else if t.params.location = "" then some "location is required"
  else if t.params.resultsWanted ≤ 0 then some "results_wanted must be greater than 0"
  else if t.timeout ≤ 0 then some "timeout must be greater than 0"
  else none

/-- Embeds `JobSpyAPIClient.ValidateParams` (health_monitor.go lines
497-523). -/
def ValidateParams (p : ScrapingTaskParams) : Option WorkerError :=
  if p.searchTerm = "" then
    some (.validation "search_term" "search term is required")
  else if p.location = "" then
    some (.validation "location" "location is required")
  else if p.resultsWanted ≤ 0 ∨ p.resultsWanted > 1000 then
    some (.validation "results_wanted" "results_wanted must be between 1 and 1000")
  else none

/-- `protocol.TaskStatus`. The Go constant `TaskStatusPartial` is rendered
`partialStatus`. -/
inductive TaskStatus where
  | pending
  | running
  | success
  | failed
  | partialStatus
  | timeout
  | retry
deriving DecidableEq

/-- The error value returned by `Worker.ProcessTask`: validation failure,
scraper-params failure, `ctx.Err()` surfaced from the backoff wait, or the
final `task failed after %d attempts: %w` error carrying the reported attempt
count (`task.MaxRetries+1`) and the wrapped last error. -/
inductive ProcError where
  | validationFailed (msg : String)
  | paramsValidationFailed (e : WorkerError)
  | ctxErr
  | failedAfter (attempts : Nat) (last : Option WorkerError)
deriving DecidableEq

/-- `protocol.ScrapingResult` restricted to the fields the claims inspect.
`errorInfo` models the `Error *string` field: it carries the structured error
whose rendering the Go code stores as the message. Timing fields
(`ExecutionTime`, `CompletedAt`) are wall-clock dependent and omitted. -/
structure ScrapingResult where
  taskID : String
  status : TaskStatus
  jobsFound : Nat
  errorInfo : Option ProcError
deriving DecidableEq

/-- Outcome of one `scraper.ScrapeJobs` call. -/
inductive ScrapeOutcome where
  | ok (r : ScrapingResult)
  | err (e : WorkerError)

/-! ## Worker metrics (part_000 lines 122-131, 281-295) -/

/-- `WorkerMetrics`; `LastTaskTime` is wall-clock dependent and omitted.
Durations are `Int` nanoseconds. -/
structure WorkerMetrics where
  tasksProcessed : Nat
  tasksSuccessful : Nat
  tasksFailed : Nat
  tasksRetried : Nat
  totalProcessTime : Int
  averageTaskTime : Int
deriving DecidableEq

def WorkerMetrics.zero : WorkerMetrics := ⟨0, 0, 0, 0, 0, 0⟩

instance : Inhabited WorkerMetrics := ⟨WorkerMetrics.zero⟩

/-- Embeds `Worker.updateMetrics` (part_000 lines 281-295). The average uses
Go integer division (`int64(...) / ...`), i.e. truncation (`Int.tdiv`). -/
def updateMetrics (m : WorkerMetrics) (success : Bool) (duration : Int) : WorkerMetrics :=
  let processed := m.tasksProcessed + 1
  let total := m.totalProcessTime + duration
  let avg := Int.tdiv total (processed : Int)
  if success then
    { m with tasksProcessed := processed, totalProcessTime := total,
             averageTaskTime := avg, tasksSuccessful := m.tasksSuccessful + 1 }
  else
    { m with tasksProcessed := processed, totalProcessTime := total,
             averageTaskTime := avg, tasksFailed := m.tasksFailed + 1 }

/-- Applies a recorded sequence of `updateMetrics(success, ...)` calls;
durations are abstracted to 0, which the counting claims never inspect. -/
def applyMetricsUpdates (m : WorkerMetrics) (updates : List Bool) : WorkerMetrics :=
  updates.foldl (fun acc success => updateMetrics acc success 0) m

/-! ## ProcessTask retry state machine (part_000 lines 163-245)

The loop `for attempt := 0; attempt <= task.MaxRetries; attempt++` is
embedded as `runAttempts` with `fuel = maxRetries + 1 - attempt` remaining
iterations.  The environment supplies `outcomes i` (the result of the
`ScrapeJobs` call of attempt `i`) and `cancelled i` (whether `ctx.Done()`
fires during the backoff sleep that precedes attempt `i ≥ 1`). -/

/-- How the Go retry loop is exited. -/
inductive LoopExit where
  | success (r : ScrapingResult)
  | cancelledExit
  | exhausted (last : Option WorkerError)
deriving DecidableEq

/-- One pass of the retry loop starting at `attempt` with `fuel` iterations
remaining.  Returns (number of `ScrapeJobs` calls made, number of
`TasksRetried` increments, exit).  For `attempt > 0` the `TasksRetried`
increment precedes the cancellable backoff wait, exactly as in the source. -/
def runAttempts (outcomes : Nat → ScrapeOutcome) (cancelled : Nat → Bool)
    (lastErr : Option WorkerError) (attempt : Nat) : Nat → Nat × Nat × LoopExit
  | 0 => (0, 0, .exhausted lastErr)
  | fuel + 1 =>
    if 0 < attempt ∧ cancelled attempt = true then
      (0, 1, .cancelledExit)
    else
      let retriedHere := if 0 < attempt then 1 else 0
      match outcomes attempt with
      | .ok r => (1, retriedHere, .success r)
      | .err e =>
        if isRetryableError e then
          let res := runAttempts outcomes cancelled (some e) (attempt + 1) fuel
          (res.1 + 1, res.2.1 + retriedHere, res.2.2)
        else
          (1, retriedHere, .exhausted (some e))

/-- Everything observable about one `Worker.ProcessTask` run: the returned
result or error, how many `ScrapeJobs` calls were made, how many
`TasksRetried` increments happened, and the sequence of
`updateMetrics(success, ...)` calls (`ProcessTask` performs exactly one,
at its single exit point). -/
structure ProcOutcome where
  result : Option ScrapingResult
  error : Option ProcError
  scrapeCalls : Nat
  retriedCount : Nat
  metricsUpdates : List Bool
deriving DecidableEq

/-- Embeds `Worker.ProcessTask` (part_000 lines 163-245): validate the task,
validate the scraper params, then run the retry loop with
`task.MaxRetries + 1` allowed attempts.  On exhaustion the returned error
reports `task.MaxRetries + 1` attempts (the Go code formats this count even
when the loop was exited early by a non-retryable error). -/
def ProcessTask (t : ScrapingTask) (outcomes : Nat → ScrapeOutcome)
    (cancelled : Nat → Bool) : ProcOutcome :=
  match t.Validate with
  | some msg =>
    { result := none, error := some (.validationFailed msg),
      scrapeCalls := 0, retriedCount := 0, metricsUpdates := [false] }
  | none =>
    match ValidateParams t.params with
    | some e =>
      { result := none, error := some (.paramsValidationFailed e),
        scrapeCalls := 0, retriedCount := 0, metricsUpdates := [false] }
    | none =>
      let res := runAttempts outcomes cancelled none 0 (t.maxRetries + 1)
      match res.2.2 with
      | .success r =>
        { result := some r, error := none, scrapeCalls := res.1,
          retriedCount := res.2.1, metricsUpdates := [true] }
      | .cancelledExit =>
        { result := none, error := some .ctxErr, scrapeCalls := res.1,
          retriedCount := res.2.1, metricsUpdates := [false] }
      | .exhausted last =>
        { result := none,
          error := some (.failedAfter (t.maxRetries + 1) last),
          scrapeCalls := res.1, retriedCount := res.2.1,
          metricsUpdates := [false] }

/-! ## Concrete fixtures used by witnesses and counterexamples -/

/-- A well-formed task with retry budget 2. -/
def exTask : ScrapingTask :=
  { taskID := "t1", scraperType := "indeed",
    params := { searchTerm := "engineer", location := "Remote", resultsWanted := 10 },
    timeout := 30, maxRetries := 2 }

/-- Every attempt fails with a retryable rate-limit error. -/
def exOutsRetry : Nat → ScrapeOutcome :=
  fun _ => .err (.scraping "rate_limit" 429 true)

/-- The first attempt fails with a non-retryable validation error. -/
def exOutsFatal : Nat → ScrapeOutcome :=
  fun _ => .err (.validation "search_term" "search term is required")

/-- The context is never cancelled. -/
def exCancNever : Nat → Bool := fun _ => false

/-- The context is cancelled during the backoff before attempt 1. -/
def exCancAt1 : Nat → Bool := fun i => decide (i = 1)

/-- A task with an empty location, rejected by validation. -/
def exBadTask : ScrapingTask :=
  { taskID := "t2", scraperType := "indeed",
    params := { searchTerm := "engineer", location := "", resultsWanted := 10 },
    timeout := 30, maxRetries := 0 }

/-! ## Backoff computation (part_000 lines 298-315, 360-364)

Go `time.Duration` is int64 nanoseconds.  The shift `1 << uint(attempt-1)`
and the product `time.Duration(multiplier) * baseDelay` are 64-bit signed
operations that wrap on overflow, modelled by `int64wrap` (for shift counts
of 64 or more Go yields 0, which `int64wrap (2 ^ s)` also gives since
`2 ^ s ≡ 0 (mod 2 ^ 64)`).  `randFloat()` is
`float64(time.Now().UnixNano()%1000) / 1000.0`, i.e. `k / 1000` with
`k ∈ [0, 999]`; the jitter
`time.Duration(float64(delay) * 0.25 * (2*randFloat() - 1))` is the exact
rational `delay * (2k - 1000) / 4000` truncated toward zero, modelled by
`Int.tdiv`. -/

/-- Reduces an integer into the signed 64-bit range, as Go arithmetic does. -/
def int64wrap (n : Int) : Int := (n + 2 ^ 63) % 2 ^ 64 - 2 ^ 63

/-- Embeds `Worker.calculateBackoffDelay` (part_000 lines 298-315).
`retryDelay` is the configured `RetryDelay` in nanoseconds; `attempt` is the
retry attempt number; `k ∈ [0, 999]` is the nanosecond sample used by
`randFloat`. -/
def calculateBackoffDelay (retryDelay : Int) (attempt : Nat) (k : Nat) : Int :=
  let baseDelay : Int := if retryDelay = 0 then 5000000000 else retryDelay
  let multiplier0 : Int := int64wrap (2 ^ (attempt - 1))
  let multiplier : Int := if multiplier0 > 16 then 16 else multiplier0
  let delay : Int := int64wrap (multiplier * baseDelay)
  let jitter : Int := Int.tdiv (delay * (2 * (k : Int) - 1000)) 4000
  int64wrap (delay + jitter)

/-- The nominal delay the spec formula prescribes for attempt `n`:
`baseDelay * min(2^(n-1), 16)` with the same 5 s default; used to compare
the code's computation against the claim. -/
def nominalBackoffDelay (retryDelay : Int) (attempt : Nat) : Int :=
  (if retryDelay = 0 then 5000000000 else retryDelay) * min (2 ^ (attempt - 1)) 16

/-! ## Health monitor (health_monitor.go lines 299-381)

Wall-clock instants are `Int` Unix nanoseconds; the Go zero time (no success
ever recorded) is `none`.  float64 rates/percentages are exact rationals. -/

/-- The `TaskMetrics` fields read by `calculateHealthStatus`. -/
structure TaskMetricsSnap where
  lastSuccessfulScrape : Option Int
  errorRateLastHour : ℚ

/-- The `SystemMetrics` fields read by `calculateHealthStatus`. -/
structure SystemMetricsSnap where
  memoryUsageMB : ℚ
  cpuUsagePercent : ℚ

/-- 30 minutes in nanoseconds. -/
def thirtyMinutesNs : Int := 1800000000000

/-- `!taskMetrics.LastSuccessfulScrape.IsZero() &&
time.Since(taskMetrics.LastSuccessfulScrape) > 30*time.Minute` at instant
`now`. -/
def staleSuccess (now : Int) (last : Option Int) : Bool :=
  match last with
  | none => false
  | some t => decide (thirtyMinutesNs < now - t)

/-- Embeds `HealthMonitor.calculateHealthStatus` (lines 299-324): the
stale-success check, then the error-rate thresholds, then memory, then
CPU. -/
def calculateHealthStatus (now : Int) (tm : TaskMetricsSnap)
    (sm : SystemMetricsSnap) : String :=
  if staleSuccess now tm.lastSuccessfulScrape then "unhealthy"
  else if tm.errorRateLastHour > 8/10 then "unhealthy"
  else if tm.errorRateLastHour > 1/2 then "degraded"
  else if sm.memoryUsageMB > 1024 then "degraded"
  else if sm.cpuUsagePercent > 90 then "degraded"
  else "healthy"

/-- The classification exactly as the claim states it, for comparison with
the code's `calculateHealthStatus`: unhealthy when the last success is more
than 30 minutes old (and a success has occurred) or the error rate exceeds
0.8; degraded when the error rate is in (0.5, 0.8], memory exceeds 1024 MB
or CPU exceeds 90%; healthy otherwise. -/
def claimedHealthStatus (now : Int) (tm : TaskMetricsSnap)
    (sm : SystemMetricsSnap) : String :=
  if staleSuccess now tm.lastSuccessfulScrape = true ∨
      tm.errorRateLastHour > 8/10 then "unhealthy"
  else if (tm.errorRateLastHour > 1/2 ∧ tm.errorRateLastHour ≤ 8/10) ∨
      sm.memoryUsageMB > 1024 ∨ sm.cpuUsagePercent > 90 then "degraded"
  else "healthy"

/-- The rolling-window state (`TaskMetrics` in Go): timestamps as Unix ns,
response times as ns durations; `AverageResponseTime` uses Go duration
division. -/
structure TaskMetricsState where
  tasksCompletedLastHour : Nat
  tasksFailedLastHour : Nat
  errorRateLastHour : ℚ
  averageResponseTime : Int
  successWindow : List Int
  errorWindow : List Int
  responseTimeWindow : List Int
deriving DecidableEq

/-- The Go per-window prune loop in `cleanOldEntries` (lines 331-350): keep
the suffix starting at the first entry strictly after the cutoff; if no
entry is after the cutoff the window is emptied. -/
def cleanWindow (cutoff : Int) : List Int → List Int
  | [] => []
  | t :: rest => if cutoff < t then t :: rest else cleanWindow cutoff rest

/-- Embeds `HealthMonitor.cleanOldEntries` (lines 327-356): prune both
timestamp windows, then cut the response-time window down to the new
success-window length if it is longer. -/
def cleanOldEntries (cutoff : Int) (st : TaskMetricsState) : TaskMetricsState :=
  let sw := cleanWindow cutoff st.successWindow
  let ew := cleanWindow cutoff st.errorWindow
  let rw :=
    if st.responseTimeWindow.length > sw.length then
      st.responseTimeWindow.drop (st.responseTimeWindow.length - sw.length)
    else st.responseTimeWindow
  { st with successWindow := sw, errorWindow := ew, responseTimeWindow := rw }

/-- Embeds `HealthMonitor.updateTaskMetrics` (lines 359-381): recompute the
counters and the error rate from the windows; the average response time is
recomputed only when the response-time window is non-empty (Go duration
division truncates, `Int.tdiv`). -/
def updateTaskMetrics (st : TaskMetricsState) : TaskMetricsState :=
  let successCount := st.successWindow.length
  let errorCount := st.errorWindow.length
  let totalTasks := successCount + errorCount
  { st with
    tasksCompletedLastHour := successCount,
    tasksFailedLastHour := errorCount,
    errorRateLastHour :=
      if 0 < totalTasks then (errorCount : ℚ) / (totalTasks : ℚ) else 0,
    averageResponseTime :=
      if 0 < st.responseTimeWindow.length then
        Int.tdiv (st.responseTimeWindow.foldl (· + ·) 0)
          (st.responseTimeWindow.length : Int)
      else st.averageResponseTime }

/-! ## HTTP status classification (health_monitor.go lines 669-692) -/

/-- Embeds the non-200 status handling of `JobSpyAPIClient.callJobSpyAPI`:
429 yields a retryable `rate_limit` error; any other status ≥ 400 yields a
`blocked` error whose `Retryable` flag is `statusCode >= 500`; remaining
statuses fall through to body parsing (`none`). -/
def classifyStatus (statusCode : Int) : Option WorkerError :=
  if statusCode ≠ 200 then
    if statusCode = 429 then
      some (.scraping "rate_limit" statusCode true)
    else if statusCode ≥ 400 then
      some (.scraping "blocked" statusCode (decide (statusCode ≥ 500)))
    else none
  else none

/-! ## Orchestrator task dispatch (part_000 lines 626-710) -/

/-- What `redisClient.PopTask` produced for one polling iteration. -/
inductive PopOutcome where
  | popError
  | noTask
  | task (t : ScrapingTask)

/-- Embeds `Orchestrator.processNextTask` projected onto its publish
behaviour: the returned list is the sequence of results published to the
results channel.  On a popped task, `ProcessTask` runs; if it returned an
error a failed Result carrying the error and the task's ID is built
(`Error: &err.Error()` in the source); either way `result.TaskID` is set to
`task.TaskID` and the single result is published.  Pop errors and empty
polls publish nothing. -/
def processNextTask (pop : PopOutcome) (outcomes : Nat → ScrapeOutcome)
    (cancelled : Nat → Bool) : List ScrapingResult :=
  match pop with
  | .popError => []
  | .noTask => []
  | .task t =>
    let po := ProcessTask t outcomes cancelled
    match po.error, po.result with
    | some e, _ =>
      [{ taskID := t.taskID, status := .failed, jobsFound := 0,
         errorInfo := some e }]
    | none, some r => [{ r with taskID := t.taskID }]
    | none, none => []

/-! ## Metrics accessors: pointer vs. snapshot semantics (part_000 lines
248-250 and 552-559)

Go pointers are modelled as indices into a heap of allocated cells. -/

/-- A heap of mutable cells; pointers are allocation indices. -/
structure Heap (α : Type) where
  next : Nat
  mem : Nat → Option α

def Heap.empty (α : Type) : Heap α := ⟨0, fun _ => none⟩

def Heap.read {α : Type} [Inhabited α] (h : Heap α) (p : Nat) : α :=
  (h.mem p).getD default

def Heap.write {α : Type} (h : Heap α) (p : Nat) (v : α) : Heap α :=
  { h with mem := fun q => if q = p then some v else h.mem q }

def Heap.alloc {α : Type} (h : Heap α) (v : α) : Heap α × Nat :=
  ({ next := h.next + 1,
     mem := fun q => if q = h.next then some v else h.mem q }, h.next)

/-- `OrchestratorMetrics` restricted to representative fields (timing and
timestamp fields are wall-clock dependent and omitted). -/
structure OrchestratorMetrics where
  tasksProcessed : Nat
  tasksSuccessful : Nat
  tasksFailed : Nat
  activeWorkers : Nat
  errorRate : ℚ
deriving DecidableEq

instance : Inhabited OrchestratorMetrics := ⟨⟨0, 0, 0, 0, 0⟩⟩

/-- A Worker as seen by its accessor: the `w.metrics` pointer. -/
structure WorkerObj where
  metricsPtr : Nat

/-- An Orchestrator as seen by its accessor: the `o.metrics` pointer. -/
structure OrchObj where
  metricsPtr : Nat

/-- Embeds `Worker.GetMetrics` (part_000 lines 248-250): `return w.metrics`
hands out the pointer to the live internal metrics; nothing is copied or
allocated. -/
def WorkerObj.getMetrics (w : WorkerObj) : Nat := w.metricsPtr

/-- Embeds `Orchestrator.GetMetrics` (part_000 lines 552-559):
`metrics := *o.metrics; return &metrics` reads the internal metrics under
the lock and returns a pointer to a freshly allocated copy. -/
def OrchObj.getMetrics (o : OrchObj) (h : Heap OrchestratorMetrics) :
    Heap OrchestratorMetrics × Nat :=
  h.alloc (h.read o.metricsPtr)

/-- Embeds `Orchestrator.updateMetrics` (part_000 lines 787-791): the update
function is applied to the internal metrics cell under the lock. -/
def OrchObj.updateMetrics (o : OrchObj) (h : Heap OrchestratorMetrics)
    (f : OrchestratorMetrics → OrchestratorMetrics) :
    Heap OrchestratorMetrics :=
  h.write o.metricsPtr (f (h.read o.metricsPtr))

/-! ## Fixtures for the health-monitor and metrics claims -/

/-- A window state with nondecreasing timestamps around a cutoff of 150. -/
def exTMState : TaskMetricsState :=
  { tasksCompletedLastHour := 0, tasksFailedLastHour := 0,
    errorRateLastHour := 0, averageResponseTime := 0,
    successWindow := [100, 200, 300], errorWindow := [150, 250],
    responseTimeWindow := [10, 20, 30] }

/-- Worker-side heap: one metrics cell at pointer 0, zeroed. -/
def exWorkerHeap : Heap WorkerMetrics :=
  ((Heap.empty WorkerMetrics).alloc WorkerMetrics.zero).1

def exWorker : WorkerObj := ⟨0⟩

/-- A mutated metrics value written through the returned pointer. -/
def wmMutated : WorkerMetrics := ⟨99, 0, 0, 0, 0, 0⟩

/-- Orchestrator-side heap: one metrics cell at pointer 0. -/
def exOrchHeap : Heap OrchestratorMetrics :=
  ((Heap.empty OrchestratorMetrics).alloc ⟨5, 3, 2, 4, 0⟩).1

def exOrch : OrchObj := ⟨0⟩

def omMutated : OrchestratorMetrics := ⟨77, 0, 0, 0, 0⟩

/-- The needle occurs in the haystack at (0-based) index `i`. -/
def occursAt (h n : List Char) (i : Nat) : Prop :=
  i + n.length ≤ h.length ∧ (h.drop i).take n.length = n

instance (h n : List Char) (i : Nat) : Decidable (occursAt h n i) := by
  unfold occursAt; infer_instance

lemma occursAt_cons_succ (c : Char) (rest n : List Char) (j : Nat) :
    occursAt (c :: rest) n (j + 1) ↔ occursAt rest n j := by
  unfold occursAt
  constructor
  · rintro ⟨h1, h2⟩
    exact ⟨by simp at h1 ⊢; omega, by simpa using h2⟩
  · rintro ⟨h1, h2⟩
    exact ⟨by simp; omega, by simpa using h2⟩

lemma indexOfAux_spec (n : List Char) (s : List Char) :
    ∀ i : Nat,
      (indexOfAux n s i = -1 ∧ ∀ j, ¬ occursAt s n j) ∨
      (∃ j, indexOfAux n s i = ((i + j : Nat) : Int) ∧ occursAt s n j ∧
        ∀ j', j' < j → ¬ occursAt s n j') := by
  induction s with
  | nil =>
    intro i
    by_cases hn : n.length ≤ 0
    · right
      refine ⟨0, ?_, ?_, by omega⟩
      · have hn0 : n = [] := List.eq_nil_of_length_eq_zero (by omega)
        simp [indexOfAux, hn0]
      · have hn0 : n = [] := List.eq_nil_of_length_eq_zero (by omega)
        simp [occursAt, hn0]
    · left
      constructor
      · simp only [indexOfAux, List.length_nil]
        rw [if_neg hn]
      · intro j hj
        rcases hj with ⟨h1, _⟩
        simp only [List.length_nil] at h1
        omega
  | cons c rest ih =>
    intro i
    by_cases hle : n.length ≤ (c :: rest).length
    · by_cases hm : (c :: rest).take n.length == n
      · right
        refine ⟨0, ?_, ?_, by omega⟩
        · rw [indexOfAux, if_pos hle, if_pos hm]
          simp
        · refine ⟨?_, by simpa using (beq_iff_eq.mp hm)⟩
          simpa using hle
      · have hstep : indexOfAux n (c :: rest) i = indexOfAux n rest (i + 1) := by
          rw [indexOfAux]
          rw [if_pos hle, if_neg hm]
        have hnot0 : ¬ occursAt (c :: rest) n 0 := by
          rintro ⟨-, h2⟩
          have hm' : ¬ (c :: rest).take n.length = n := by simpa using hm
          simp only [List.drop_zero] at h2
          exact hm' h2
        rcases ih (i + 1) with ⟨hres, hall⟩ | ⟨j, hres, hocc, hmin⟩
        · left
          refine ⟨by rw [hstep]; exact hres, ?_⟩
          intro j hj
          match j with
          | 0 => exact hnot0 hj
          | j + 1 => exact hall j ((occursAt_cons_succ c rest n j).mp hj)
        · right
          refine ⟨j + 1, ?_, (occursAt_cons_succ c rest n j).mpr hocc, ?_⟩
          · rw [hstep, hres]
            congr 1
            omega
          · intro j' hj'
            match j' with
            | 0 => exact hnot0
            | k + 1 =>
              intro hk
              exact hmin k (by omega) ((occursAt_cons_succ c rest n k).mp hk)
    · left
      constructor
      · simp only [indexOfAux]
        rw [if_neg hle]
      · intro j hj
        rcases hj with ⟨h1, -⟩
        omega

lemma occursAt_iff_parts (h n : List Char) :
    (∃ j, occursAt h n j) ↔ ∃ s t, s ++ n ++ t = h := by
  constructor
  · rintro ⟨j, hlen, hsl⟩
    refine ⟨h.take j, h.drop (j + n.length), ?_⟩
    have hd : h.drop j = n ++ h.drop (j + n.length) := by
      conv_lhs => rw [← List.take_append_drop n.length (h.drop j)]
      rw [hsl, List.drop_drop]
    calc h.take j ++ n ++ h.drop (j + n.length)
        = h.take j ++ (n ++ h.drop (j + n.length)) := by rw [List.append_assoc]
      _ = h.take j ++ h.drop j := by rw [← hd]
      _ = h := List.take_append_drop j h
  · rintro ⟨s, t, rfl⟩
    refine ⟨s.length, ?_, ?_⟩
    · simp only [List.length_append, List.append_assoc]
      omega
    · rw [List.append_assoc, List.drop_left, List.take_left]

lemma contains_iff_occurs (h n : List Char) :
    contains h n = true ↔ ∃ j, occursAt h n j := by
  constructor
  · intro hc
    simp only [contains, Bool.and_eq_true, Bool.or_eq_true, decide_eq_true_eq,
      beq_iff_eq] at hc
    rcases hc with ⟨hlen, heq | ⟨hlt, (htk | hdr) | hidx⟩⟩
    · exact ⟨0, by omega, by simp [heq]⟩
    · exact ⟨0, by omega, by simpa using htk⟩
    · refine ⟨h.length - n.length, by omega, ?_⟩
      have hlength : (h.drop (h.length - n.length)).length = n.length := by
        rw [List.length_drop]; omega
      have htake : (h.drop (h.length - n.length)).take n.length
          = h.drop (h.length - n.length) :=
        List.take_of_length_le (by rw [hlength])
      rw [htake, hdr]
    · rcases indexOfAux_spec n h 0 with ⟨hres, -⟩ | ⟨j, -, hocc, -⟩
      · exfalso
        rw [indexOf, hres] at hidx
        omega
      · exact ⟨j, hocc⟩
  · rintro ⟨j, hocc⟩
    have hlen : n.length ≤ h.length := by
      rcases hocc with ⟨h1, -⟩; omega
    by_cases heq : h = n
    · simp [contains, hlen, heq]
    · have hlt : n.length < h.length := by
        rcases Nat.lt_or_ge n.length h.length with hlt | hge
        · exact hlt
        · exfalso
          have hlen_eq : n.length = h.length := by omega
          rcases hocc with ⟨h1, h2⟩
          have hj0 : j = 0 := by omega
          subst hj0
          simp only [List.drop_zero] at h2
          rw [hlen_eq, List.take_length] at h2
          exact heq h2
      have hidx : 0 ≤ indexOf h n := by
        rcases indexOfAux_spec n h 0 with ⟨-, hall⟩ | ⟨j', hres, -, -⟩
        · exact absurd hocc (hall j)
        · rw [indexOf, hres]; omega
      simp [contains, hlen, hlt, hidx, heq]

/-- C10: `contains(haystack, needle)` returns true iff the needle occurs as a
contiguous substring of the haystack, and `indexOf` returns the smallest index
of an occurrence, or -1 when there is none. -/
theorem contains_indexOf_correct (h n : List Char) :
    (contains h n = true ↔ ∃ s t, s ++ n ++ t = h) ∧
    (0 ≤ indexOf h n →
      occursAt h n (indexOf h n).toNat ∧
        ∀ j, occursAt h n j → (indexOf h n).toNat ≤ j) ∧
    (indexOf h n = -1 → ∀ j, ¬ occursAt h n j) ∧
    (indexOf h n = -1 ∨ 0 ≤ indexOf h n) := by
  refine ⟨(contains_iff_occurs h n).trans (occursAt_iff_parts h n), ?_, ?_, ?_⟩
  · intro hpos
    rcases indexOfAux_spec n h 0 with ⟨hres, -⟩ | ⟨j, hres, hocc, hmin⟩
    · exfalso; rw [indexOf, hres] at hpos; omega
    · have hj : (indexOf h n).toNat = j := by
        rw [indexOf, hres]; simp
      rw [hj]
      refine ⟨hocc, ?_⟩
      intro j' hj'
      by_contra hlt
      exact hmin j' (by omega) hj'
  · intro hneg j
    rcases indexOfAux_spec n h 0 with ⟨-, hall⟩ | ⟨j', hres, -, -⟩
    · exact hall j
    · exfalso
      rw [indexOf, hres] at hneg
      omega
  · rcases indexOfAux_spec n h 0 with ⟨hres, -⟩ | ⟨j, hres, -, -⟩
    · left; rw [indexOf, hres]
    · right; rw [indexOf, hres]; omega

/-- C10 witness: the specification evaluated on a concrete haystack/needle. -/
theorem contains_indexOf_correct_witness :
    (contains ("abc".toList) ("bc".toList) = true ↔
      ∃ s t, s ++ ("bc".toList) ++ t = "abc".toList) ∧
    (0 ≤ indexOf ("abc".toList) ("bc".toList) →
      occursAt ("abc".toList) ("bc".toList)
          (indexOf ("abc".toList) ("bc".toList)).toNat ∧
        ∀ j, occursAt ("abc".toList) ("bc".toList) j →
          (indexOf ("abc".toList) ("bc".toList)).toNat ≤ j) ∧
    (indexOf ("abc".toList) ("bc".toList) = -1 →
      ∀ j, ¬ occursAt ("abc".toList) ("bc".toList) j) ∧
    (indexOf ("abc".toList) ("bc".toList) = -1 ∨
      0 ≤ indexOf ("abc".toList) ("bc".toList)) :=
  contains_indexOf_correct ("abc".toList) ("bc".toList)

/-! ## Unfolding lemmas for the retry loop -/

lemma runAttempts_succ_cancelled (outs : Nat → ScrapeOutcome) (canc : Nat → Bool)
    (lastErr : Option WorkerError) (attempt fuel : Nat)
    (hcanc : 0 < attempt ∧ canc attempt = true) :
    runAttempts outs canc lastErr attempt (fuel + 1) = (0, 1, .cancelledExit) := by
  rw [runAttempts, if_pos hcanc]

lemma runAttempts_succ_err_retryable (outs : Nat → ScrapeOutcome)
    (canc : Nat → Bool) (lastErr : Option WorkerError) (attempt fuel : Nat)
    (e : WorkerError) (hcanc : ¬ (0 < attempt ∧ canc attempt = true))
    (he : outs attempt = .err e) (hr : isRetryableError e = true) :
    runAttempts outs canc lastErr attempt (fuel + 1) =
      ((runAttempts outs canc (some e) (attempt + 1) fuel).1 + 1,
       (runAttempts outs canc (some e) (attempt + 1) fuel).2.1 +
         (if 0 < attempt then 1 else 0),
       (runAttempts outs canc (some e) (attempt + 1) fuel).2.2) := by
  rw [runAttempts, if_neg hcanc]
  simp only [he, hr, if_true]

lemma runAttempts_succ_err_fatal (outs : Nat → ScrapeOutcome)
    (canc : Nat → Bool) (lastErr : Option WorkerError) (attempt fuel : Nat)
    (e : WorkerError) (hcanc : ¬ (0 < attempt ∧ canc attempt = true))
    (he : outs attempt = .err e) (hr : isRetryableError e = false) :
    runAttempts outs canc lastErr attempt (fuel + 1) =
      (1, if 0 < attempt then 1 else 0, .exhausted (some e)) := by
  rw [runAttempts, if_neg hcanc]
  simp only [he, hr]
  rfl

lemma ProcessTask_eq_run (t : ScrapingTask) (outs : Nat → ScrapeOutcome)
    (canc : Nat → Bool) (hval : t.Validate = none)
    (hparams : ValidateParams t.params = none) :
    ProcessTask t outs canc =
      (match (runAttempts outs canc none 0 (t.maxRetries + 1)).2.2 with
       | .success r =>
         { result := some r, error := none,
           scrapeCalls := (runAttempts outs canc none 0 (t.maxRetries + 1)).1,
           retriedCount := (runAttempts outs canc none 0 (t.maxRetries + 1)).2.1,
           metricsUpdates := [true] }
       | .cancelledExit =>
         { result := none, error := some .ctxErr,
           scrapeCalls := (runAttempts outs canc none 0 (t.maxRetries + 1)).1,
           retriedCount := (runAttempts outs canc none 0 (t.maxRetries + 1)).2.1,
           metricsUpdates := [false] }
       | .exhausted last =>
         { result := none, error := some (.failedAfter (t.maxRetries + 1) last),
           scrapeCalls := (runAttempts outs canc none 0 (t.maxRetries + 1)).1,
           retriedCount := (runAttempts outs canc none 0 (t.maxRetries + 1)).2.1,
           metricsUpdates := [false] }) := by
  unfold ProcessTask
  rw [hval, hparams]

lemma runAttempts_all_retryable (outs : Nat → ScrapeOutcome) (canc : Nat → Bool) :
    ∀ (fuel attempt : Nat) (lastErr : Option WorkerError),
      (∀ i, attempt ≤ i → i < attempt + fuel →
        ∃ e, outs i = .err e ∧ isRetryableError e = true) →
      (∀ i, canc i = false) →
      (runAttempts outs canc lastErr attempt fuel).1 = fuel ∧
      ∃ l, (runAttempts outs canc lastErr attempt fuel).2.2 = .exhausted l := by
  intro fuel
  induction fuel with
  | zero =>
    intro attempt lastErr _ _
    exact ⟨rfl, lastErr, rfl⟩
  | succ fuel ih =>
    intro attempt lastErr ho hc
    obtain ⟨e, he, hr⟩ := ho attempt le_rfl (by omega)
    have hcanc : ¬ (0 < attempt ∧ canc attempt = true) := by
      rw [hc attempt]
      simp
    rw [runAttempts_succ_err_retryable outs canc lastErr attempt fuel e hcanc he hr]
    obtain ⟨h1, l, h2⟩ := ih (attempt + 1) (some e)
      (fun i hi1 hi2 => ho i (by omega) (by omega)) hc
    refine ⟨?_, l, h2⟩
    show (runAttempts outs canc (some e) (attempt + 1) fuel).1 + 1 = fuel + 1
    omega

lemma runAttempts_cancelled_run (outs : Nat → ScrapeOutcome) (canc : Nat → Bool) :
    ∀ (fuel attempt j : Nat) (lastErr : Option WorkerError),
      attempt ≤ j → j < attempt + fuel → 0 < j →
      (∀ i, attempt ≤ i → i < j → ∃ e, outs i = .err e ∧ isRetryableError e = true) →
      (∀ i, i < j → canc i = false) →
      canc j = true →
      (runAttempts outs canc lastErr attempt fuel).1 = j - attempt ∧
      (runAttempts outs canc lastErr attempt fuel).2.2 = .cancelledExit := by
  intro fuel
  induction fuel with
  | zero =>
    intro attempt j lastErr h1 h2 h3 _ _ _
    omega
  | succ fuel ih =>
    intro attempt j lastErr hle hlt hpos ho hcb hcj
    by_cases hj : attempt = j
    · subst hj
      rw [runAttempts_succ_cancelled outs canc lastErr attempt fuel ⟨hpos, hcj⟩]
      exact ⟨by simp, rfl⟩
    · have hlt' : attempt < j := by omega
      obtain ⟨e, he, hr⟩ := ho attempt le_rfl hlt'
      have hcanc : ¬ (0 < attempt ∧ canc attempt = true) := by
        rintro ⟨-, hcv⟩
        rw [hcb attempt hlt'] at hcv
        exact Bool.false_ne_true hcv
      rw [runAttempts_succ_err_retryable outs canc lastErr attempt fuel e hcanc he hr]
      obtain ⟨h1, h2⟩ := ih (attempt + 1) j (some e) (by omega) (by omega) hpos
        (fun i hi1 hi2 => ho i (by omega) hi2) hcb hcj
      refine ⟨?_, h2⟩
      show (runAttempts outs canc (some e) (attempt + 1) fuel).1 + 1 = j - attempt
      omega

/-! ## Claim C3: task validation -/

/-- C3: the combined task validation (`ScrapingTask.Validate` followed by
`JobSpyAPIClient.ValidateParams`) accepts a task iff task_id, scraper_type,
search_term and location are non-empty, results_wanted lies in (0, 1000] and
timeout is positive; a task failing validation is rejected before any
`ScrapeJobs` call is made. -/
theorem task_validation_correct (t : ScrapingTask) (outs : Nat → ScrapeOutcome)
    (canc : Nat → Bool) :
    ((t.Validate = none ∧ ValidateParams t.params = none) ↔
      (t.taskID ≠ "" ∧ t.scraperType ≠ "" ∧ t.params.searchTerm ≠ "" ∧
        t.params.location ≠ "" ∧ 0 < t.params.resultsWanted ∧
        t.params.resultsWanted ≤ 1000 ∧ 0 < t.timeout)) ∧
    (¬ (t.Validate = none ∧ ValidateParams t.params = none) →
      (ProcessTask t outs canc).scrapeCalls = 0) := by
  constructor
  · constructor
    · rintro ⟨hv, hp⟩
      unfold ScrapingTask.Validate at hv
      unfold ValidateParams at hp
      split_ifs at hv hp
      simp_all
    · rintro ⟨h1, h2, h3, h4, h5, h6, h7⟩
      refine ⟨?_, ?_⟩
      · unfold ScrapingTask.Validate
        split_ifs <;> first | rfl | omega | simp_all
      · unfold ValidateParams
        split_ifs <;> first | rfl | omega | simp_all
  · intro hnv
    rcases hval : t.Validate with _ | msg
    · rcases hpar : ValidateParams t.params with _ | e
      · exact absurd ⟨hval, hpar⟩ hnv
      · unfold ProcessTask
        rw [hval, hpar]
    · unfold ProcessTask
      rw [hval]

/-- C3 witness: a task with an empty location makes zero scrape calls. -/
theorem task_validation_correct_witness :
    (ProcessTask exBadTask exOutsRetry exCancNever).scrapeCalls = 0 :=
  (task_validation_correct exBadTask exOutsRetry exCancNever).2 (by decide)

/-! ## Claim C1: attempt counts of the retry loop -/

/-- C1: for a task passing validation, if every attempt fails with a
retryable error and the context is never cancelled, `ProcessTask` calls
`ScrapeJobs` exactly `maxRetries + 1` times and returns a `failedAfter`
error referencing that count; if the first attempt fails with a
non-retryable error, it makes exactly 1 call and returns the failure with no
retries. -/
theorem processTask_attempt_counts (t : ScrapingTask)
    (outsR outsN : Nat → ScrapeOutcome) (canc : Nat → Bool)
    (hval : t.Validate = none) (hparams : ValidateParams t.params = none) :
    ((∀ i, i ≤ t.maxRetries → ∃ e, outsR i = .err e ∧ isRetryableError e = true) →
      (∀ i, canc i = false) →
      (ProcessTask t outsR canc).scrapeCalls = t.maxRetries + 1 ∧
      ∃ l, (ProcessTask t outsR canc).error =
        some (.failedAfter (t.maxRetries + 1) l)) ∧
    (∀ e, outsN 0 = .err e → isRetryableError e = false →
      (ProcessTask t outsN canc).scrapeCalls = 1 ∧
      (ProcessTask t outsN canc).retriedCount = 0 ∧
      (ProcessTask t outsN canc).error =
        some (.failedAfter (t.maxRetries + 1) (some e))) := by
  constructor
  · intro ho hc
    obtain ⟨h1, l, h2⟩ := runAttempts_all_retryable outsR canc (t.maxRetries + 1)
      0 none (fun i hi1 hi2 => ho i (by omega)) hc
    rw [ProcessTask_eq_run t outsR canc hval hparams, h2]
    exact ⟨h1, l, rfl⟩
  · intro e he hr
    have hcanc : ¬ ((0 : Nat) < 0 ∧ canc 0 = true) := by simp
    have hrun := runAttempts_succ_err_fatal outsN canc none 0 t.maxRetries e hcanc he hr
    rw [ProcessTask_eq_run t outsN canc hval hparams, hrun]
    exact ⟨rfl, by simp, rfl⟩

/-- C1 witness: with retry budget 2, an always-rate-limited task makes 3
calls, and a task failing fatally on the first attempt makes 1 call. -/
theorem processTask_attempt_counts_witness :
    (ProcessTask exTask exOutsRetry exCancNever).scrapeCalls = exTask.maxRetries + 1 ∧
    (∃ l, (ProcessTask exTask exOutsRetry exCancNever).error =
      some (.failedAfter (exTask.maxRetries + 1) l)) ∧
    (ProcessTask exTask exOutsFatal exCancNever).scrapeCalls = 1 ∧
    (ProcessTask exTask exOutsFatal exCancNever).retriedCount = 0 := by
  obtain ⟨hA, hB⟩ := processTask_attempt_counts exTask exOutsRetry exOutsFatal
    exCancNever (by decide) (by decide)
  obtain ⟨h1, h2⟩ := hA
    (fun i _ => ⟨.scraping "rate_limit" 429 true, rfl, rfl⟩) (fun i => rfl)
  obtain ⟨h3, h4, h5⟩ := hB
    (.validation "search_term" "search term is required") rfl (by decide)
  exact ⟨h1, h2, h3, h4⟩

/-! ## Claim C4: cancellation during the backoff wait -/

/-- C4 counterexample: the context is cancelled during the first backoff
wait; `ProcessTask` returns `ctx.Err()` — and nevertheless performs
`updateMetrics(false, ...)` (part_000 line 203), so applying the recorded
update increments `TasksFailed` from 0 to 1.  This contradicts the claim
that a cancellation is never logged as a failure in the worker metrics. -/
theorem processTask_cancellation_failure_logged :
    (ProcessTask exTask exOutsRetry exCancAt1).error = some .ctxErr ∧
    (ProcessTask exTask exOutsRetry exCancAt1).scrapeCalls = 1 ∧
    (ProcessTask exTask exOutsRetry exCancAt1).metricsUpdates = [false] ∧
    (applyMetricsUpdates WorkerMetrics.zero
      (ProcessTask exTask exOutsRetry exCancAt1).metricsUpdates).tasksFailed = 1 := by
  decide

/-- C4 (amended): if the context is cancelled during the backoff wait before
attempt `j` (all earlier attempts having failed retryably), `ProcessTask`
returns the cancellation error without invoking `ScrapeJobs` again (exactly
`j` calls were made) and never retries past the cancellation — but the run IS
recorded as a failure: the single metrics update is `updateMetrics(false)`. -/
theorem processTask_cancellation_behaviour (t : ScrapingTask)
    (outs : Nat → ScrapeOutcome) (canc : Nat → Bool) (j : Nat)
    (hval : t.Validate = none) (hparams : ValidateParams t.params = none)
    (hj0 : 0 < j) (hjle : j ≤ t.maxRetries)
    (ho : ∀ i, i < j → ∃ e, outs i = .err e ∧ isRetryableError e = true)
    (hc : ∀ i, i < j → canc i = false)
    (hcj : canc j = true) :
    (ProcessTask t outs canc).error = some .ctxErr ∧
    (ProcessTask t outs canc).result = none ∧
    (ProcessTask t outs canc).scrapeCalls = j ∧
    (ProcessTask t outs canc).metricsUpdates = [false] := by
  obtain ⟨h1, h2⟩ := runAttempts_cancelled_run outs canc (t.maxRetries + 1) 0 j
    none (by omega) (by omega) hj0 (fun i _ hi2 => ho i hi2) hc hcj
  rw [ProcessTask_eq_run t outs canc hval hparams, h2]
  exact ⟨rfl, rfl, by simpa using h1, rfl⟩

/-- C4 witness: the amended behaviour evaluated on a concrete cancelled
run. -/
theorem processTask_cancellation_behaviour_witness :
    (ProcessTask exTask exOutsRetry exCancAt1).error = some .ctxErr ∧
    (ProcessTask exTask exOutsRetry exCancAt1).result = none ∧
    (ProcessTask exTask exOutsRetry exCancAt1).scrapeCalls = 1 ∧
    (ProcessTask exTask exOutsRetry exCancAt1).metricsUpdates = [false] :=
  processTask_cancellation_behaviour exTask exOutsRetry exCancAt1 1 (by decide)
    (by decide) (by decide) (by decide)
    (fun i hi => ⟨.scraping "rate_limit" 429 true, rfl, rfl⟩)
    (fun i hi => by
      have h0 : i = 0 := by omega
      subst h0
      rfl)
    (by decide)

/-! ## Claim C2: backoff delay formula -/

lemma int64wrap_eq_self (x : Int) (h1 : -9223372036854775808 ≤ x)
    (h2 : x < 9223372036854775808) : int64wrap x = x := by
  have hp63 : (2 : Int) ^ 63 = 9223372036854775808 := by norm_num
  have hp64 : (2 : Int) ^ 64 = 18446744073709551616 := by norm_num
  unfold int64wrap
  rw [hp63, hp64, Int.emod_eq_of_lt (by omega) (by omega)]
  omega

lemma tdiv_jitter_bound (delay j : Int) (hj : j.natAbs ≤ 1000) :
    4 * (Int.tdiv (delay * j) 4000).natAbs ≤ delay.natAbs := by
  have h1 : (Int.tdiv (delay * j) 4000).natAbs = delay.natAbs * j.natAbs / 4000 := by
    rw [Int.natAbs_tdiv, Int.natAbs_mul]
    rfl
  rw [h1]
  have step1 : delay.natAbs * j.natAbs / 4000 ≤ delay.natAbs * 1000 / 4000 :=
    Nat.div_le_div_right (Nat.mul_le_mul_left _ hj)
  have step2 : delay.natAbs * 1000 / 4000 = delay.natAbs / 4 := by omega
  omega

/-- C2 counterexample: at retry attempt 64, the Go shift `1 << 63` overflows
a 64-bit int to `-2^63`, the cap test `multiplier > 16` is therefore false,
and with the default 5 s base delay the wrapped product is 0: the computed
delay is 0 ns, not `baseDelay * min(2^63, 16) = 80 s` within 25%.  So the
claimed formula does not hold for every attempt `n ≥ 1`. -/
theorem calculateBackoffDelay_overflow_cex :
    calculateBackoffDelay 0 64 0 = 0 ∧
    nominalBackoffDelay 0 64 = 80000000000 ∧
    ¬ (4 * |calculateBackoffDelay 0 64 0 - nominalBackoffDelay 0 64|
        ≤ nominalBackoffDelay 0 64) := by
  refine ⟨by decide, by decide, by decide⟩

/-- C2 (amended): for retry attempts `1 ≤ n ≤ 63` and a nonnegative
configured RetryDelay of at most `2^58` ns (≈ 9.1 years, so any realistic
configuration; the bound keeps the 64-bit product from wrapping), the backoff
delay equals `baseDelay * min(2^(n-1), 16)` plus a jitter of magnitude at
most 25% of that value, and never exceeds `16 * baseDelay * 1.25
= 20 * baseDelay`, where `baseDelay` is the configured RetryDelay or 5
seconds when that value is zero.  For `n ≥ 64` the shift overflows and the
formula fails (see the counterexample). -/
theorem calculateBackoffDelay_bounds (retryDelay : Int) (attempt k : Nat)
    (ha1 : 1 ≤ attempt) (ha2 : attempt ≤ 63)
    (hrd0 : 0 ≤ retryDelay) (hrd1 : retryDelay ≤ 2 ^ 58) (hk : k ≤ 999) :
    4 * |calculateBackoffDelay retryDelay attempt k -
          nominalBackoffDelay retryDelay attempt|
        ≤ nominalBackoffDelay retryDelay attempt ∧
    calculateBackoffDelay retryDelay attempt k ≤
      20 * (if retryDelay = 0 then 5000000000 else retryDelay) := by
  have hp58 : (2 : Int) ^ 58 = 288230376151711744 := by norm_num
  rw [hp58] at hrd1
  set base : Int := if retryDelay = 0 then 5000000000 else retryDelay with hbase
  have hbpos : 0 < base := by
    rw [hbase]
    split_ifs <;> omega
  have hble : base ≤ 288230376151711744 := by
    rw [hbase]
    split_ifs <;> omega
  have hpowle : (2 : Int) ^ (attempt - 1) ≤ 4611686018427387904 := by
    calc (2 : Int) ^ (attempt - 1) ≤ 2 ^ 62 :=
          pow_le_pow_right₀ (by norm_num) (by omega)
      _ = 4611686018427387904 := by norm_num
  have hpowpos : (0 : Int) < 2 ^ (attempt - 1) := pow_pos (by norm_num) _
  have hshift : int64wrap ((2 : Int) ^ (attempt - 1)) = 2 ^ (attempt - 1) :=
    int64wrap_eq_self _ (by omega) (by omega)
  have hmin : (if int64wrap ((2 : Int) ^ (attempt - 1)) > 16 then (16 : Int)
      else int64wrap ((2 : Int) ^ (attempt - 1)))
        = min ((2 : Int) ^ (attempt - 1)) 16 := by
    rw [hshift]
    split_ifs with hgt
    · exact (min_eq_right (by omega)).symm
    · exact (min_eq_left (by omega)).symm
  set m : Int := min ((2 : Int) ^ (attempt - 1)) 16 with hm
  have hm1 : 1 ≤ m := by
    rw [hm]
    exact le_min (by omega) (by norm_num)
  have hm16 : m ≤ 16 := by
    rw [hm]
    exact min_le_right _ _
  have hdnn : 0 ≤ m * base := mul_nonneg (by omega) (by omega)
  have hdle : m * base ≤ 4611686018427387904 := by
    calc m * base ≤ 16 * 288230376151711744 :=
          mul_le_mul hm16 hble (by omega) (by norm_num)
      _ = 4611686018427387904 := by norm_num
  have hA16 : m * base ≤ 16 * base :=
    mul_le_mul_of_nonneg_right hm16 (by omega)
  have hwrapd : int64wrap (m * base) = m * base :=
    int64wrap_eq_self _ (by omega) (by omega)
  have hjabs : ((2 : Int) * (k : Int) - 1000).natAbs ≤ 1000 := by omega
  have hjit := tdiv_jitter_bound (m * base) (2 * (k : Int) - 1000) hjabs
  have hwrapf : int64wrap (m * base +
      Int.tdiv (m * base * (2 * (k : Int) - 1000)) 4000)
        = m * base + Int.tdiv (m * base * (2 * (k : Int) - 1000)) 4000 :=
    int64wrap_eq_self _ (by omega) (by omega)
  have hcalc : calculateBackoffDelay retryDelay attempt k =
      m * base + Int.tdiv (m * base * (2 * (k : Int) - 1000)) 4000 := by
    simp only [calculateBackoffDelay]
    rw [← hbase, hmin, hwrapd, hwrapf]
  have hnom : nominalBackoffDelay retryDelay attempt = m * base := by
    simp only [nominalBackoffDelay]
    rw [← hbase, ← hm, mul_comm]
  constructor
  · rw [hcalc, hnom, add_sub_cancel_left, Int.abs_eq_natAbs]
    omega
  · rw [hcalc]
    omega

/-- C2 witness: the amended bounds evaluated at attempt 3, default base
delay, jitter sample 250. -/
theorem calculateBackoffDelay_bounds_witness :
    4 * |calculateBackoffDelay 0 3 250 - nominalBackoffDelay 0 3|
        ≤ nominalBackoffDelay 0 3 ∧
    calculateBackoffDelay 0 3 250 ≤
      20 * (if (0 : Int) = 0 then 5000000000 else 0) :=
  calculateBackoffDelay_bounds 0 3 250 (by decide) (by decide) (by decide)
    (by norm_num) (by decide)

/-! ## Claim C5: health classification -/

/-- C5: the health classification is a pure function of the snapshot and
agrees with the claimed rules: unhealthy when the last success is more than
30 minutes old (with at least one success ever) or the error rate exceeds
0.8; degraded when the error rate is in (0.5, 0.8], memory exceeds 1024 MB,
or CPU exceeds 90%; healthy otherwise. -/
theorem calculateHealthStatus_correct (now : Int) (tm : TaskMetricsSnap)
    (sm : SystemMetricsSnap) :
    calculateHealthStatus now tm sm = claimedHealthStatus now tm sm := by
  unfold calculateHealthStatus claimedHealthStatus
  by_cases hst : staleSuccess now tm.lastSuccessfulScrape = true
  · rw [if_pos hst, if_pos (Or.inl hst)]
  · rw [if_neg hst]
    by_cases h08 : tm.errorRateLastHour > 8/10
    · rw [if_pos h08, if_pos (Or.inr h08)]
    · rw [if_neg h08, if_neg (by tauto :
        ¬ (staleSuccess now tm.lastSuccessfulScrape = true ∨
           tm.errorRateLastHour > 8/10))]
      by_cases h05 : tm.errorRateLastHour > 1/2
      · rw [if_pos h05, if_pos (Or.inl ⟨h05, by linarith⟩)]
      · rw [if_neg h05]
        by_cases hmem : sm.memoryUsageMB > 1024
        · rw [if_pos hmem, if_pos (Or.inr (Or.inl hmem))]
        · rw [if_neg hmem]
          by_cases hcpu : sm.cpuUsagePercent > 90
          · rw [if_pos hcpu, if_pos (Or.inr (Or.inr hcpu))]
          · rw [if_neg hcpu, if_neg (by
              rintro (⟨a, -⟩ | b | c)
              exacts [h05 a, hmem b, hcpu c])]

/-! ## Claim C6: rolling windows -/

lemma cleanWindow_sorted (cutoff : Int) :
    ∀ w : List Int, List.Pairwise (· ≤ ·) w →
      cleanWindow cutoff w = w.filter (fun t => decide (cutoff < t)) := by
  intro w
  induction w with
  | nil => intro _; rfl
  | cons t rest ih =>
    intro hp
    rw [cleanWindow]
    split_ifs with hlt
    · rw [List.filter_cons_of_pos (by simpa using hlt)]
      congr 1
      symm
      rw [List.filter_eq_self]
      intro a ha
      have hta := (List.pairwise_cons.mp hp).1 a ha
      simpa using lt_of_lt_of_le hlt hta
    · rw [List.filter_cons_of_neg (by simpa using hlt)]
      exact ih (List.pairwise_cons.mp hp).2

/-- C6: for windows inserted in nondecreasing time order, pruning retains
exactly the entries strictly newer than the cutoff in both windows, the
response-time window is pruned to at most the success window's length, and
the recomputed metrics satisfy completed-in-last-hour = success window
length and error rate = errors / (successes + errors), or 0 when both
windows are empty. -/
theorem cleanAndRecompute_correct (cutoff : Int) (st : TaskMetricsState)
    (hs : List.Pairwise (· ≤ ·) st.successWindow)
    (he : List.Pairwise (· ≤ ·) st.errorWindow) :
    ((updateTaskMetrics (cleanOldEntries cutoff st)).successWindow
        = st.successWindow.filter (fun t => decide (cutoff < t))) ∧
    ((updateTaskMetrics (cleanOldEntries cutoff st)).errorWindow
        = st.errorWindow.filter (fun t => decide (cutoff < t))) ∧
    ((updateTaskMetrics (cleanOldEntries cutoff st)).responseTimeWindow.length
        ≤ (updateTaskMetrics (cleanOldEntries cutoff st)).successWindow.length) ∧
    ((updateTaskMetrics (cleanOldEntries cutoff st)).tasksCompletedLastHour
        = (updateTaskMetrics (cleanOldEntries cutoff st)).successWindow.length) ∧
    ((updateTaskMetrics (cleanOldEntries cutoff st)).errorRateLastHour =
      if (updateTaskMetrics (cleanOldEntries cutoff st)).successWindow.length
          + (updateTaskMetrics (cleanOldEntries cutoff st)).errorWindow.length = 0
      then 0
      else ((updateTaskMetrics (cleanOldEntries cutoff st)).errorWindow.length : ℚ) /
        (((updateTaskMetrics (cleanOldEntries cutoff st)).successWindow.length
          + (updateTaskMetrics (cleanOldEntries cutoff st)).errorWindow.length : Nat) : ℚ)) := by
  have hsw : (cleanOldEntries cutoff st).successWindow
      = st.successWindow.filter (fun t => decide (cutoff < t)) :=
    cleanWindow_sorted cutoff st.successWindow hs
  have hew : (cleanOldEntries cutoff st).errorWindow
      = st.errorWindow.filter (fun t => decide (cutoff < t)) :=
    cleanWindow_sorted cutoff st.errorWindow he
  have hrw : (cleanOldEntries cutoff st).responseTimeWindow.length
      ≤ (cleanOldEntries cutoff st).successWindow.length := by
    simp only [cleanOldEntries]
    split_ifs with hgt
    · rw [List.length_drop]
      omega
    · omega
  have hupd1 : ∀ s : TaskMetricsState, (updateTaskMetrics s).successWindow = s.successWindow :=
    fun s => rfl
  have hupd2 : ∀ s : TaskMetricsState, (updateTaskMetrics s).errorWindow = s.errorWindow :=
    fun s => rfl
  have hupd3 : ∀ s : TaskMetricsState,
      (updateTaskMetrics s).responseTimeWindow = s.responseTimeWindow :=
    fun s => rfl
  refine ⟨by rw [hupd1, hsw], by rw [hupd2, hew], by rw [hupd1, hupd3]; exact hrw,
    by rw [hupd1]; rfl, ?_⟩
  rw [hupd1, hupd2]
  simp only [updateTaskMetrics]
  by_cases hz : (cleanOldEntries cutoff st).successWindow.length
      + (cleanOldEntries cutoff st).errorWindow.length = 0
  · rw [if_neg (by omega), if_pos hz]
  · rw [if_pos (by omega), if_neg hz]

/-- C6 witness: the window invariants evaluated on a concrete state. -/
theorem cleanAndRecompute_correct_witness :
    ((updateTaskMetrics (cleanOldEntries 150 exTMState)).successWindow
        = exTMState.successWindow.filter (fun t => decide ((150 : Int) < t))) ∧
    ((updateTaskMetrics (cleanOldEntries 150 exTMState)).errorWindow
        = exTMState.errorWindow.filter (fun t => decide ((150 : Int) < t))) ∧
    ((updateTaskMetrics (cleanOldEntries 150 exTMState)).responseTimeWindow.length
        ≤ (updateTaskMetrics (cleanOldEntries 150 exTMState)).successWindow.length) ∧
    ((updateTaskMetrics (cleanOldEntries 150 exTMState)).tasksCompletedLastHour
        = (updateTaskMetrics (cleanOldEntries 150 exTMState)).successWindow.length) ∧
    ((updateTaskMetrics (cleanOldEntries 150 exTMState)).errorRateLastHour =
      if (updateTaskMetrics (cleanOldEntries 150 exTMState)).successWindow.length
          + (updateTaskMetrics (cleanOldEntries 150 exTMState)).errorWindow.length = 0
      then 0
      else ((updateTaskMetrics (cleanOldEntries 150 exTMState)).errorWindow.length : ℚ) /
        (((updateTaskMetrics (cleanOldEntries 150 exTMState)).successWindow.length
          + (updateTaskMetrics (cleanOldEntries 150 exTMState)).errorWindow.length : Nat) : ℚ)) :=
  cleanAndRecompute_correct 150 exTMState (by decide) (by decide)

/-! ## Claim C7: error classification drives retry policy -/

/-- C7: the adapter maps status 429 to a retryable rate-limit error and any
status ≥ 500 to a retryable error, while other 4xx statuses map to
non-retryable errors; for every classified error, retryability holds iff the
status was 429 or ≥ 500; validation errors and the two context errors are
non-retryable in the Worker's retry decision. -/
theorem error_classification_correct (status : Int) :
    (status = 429 →
      classifyStatus status = some (.scraping "rate_limit" status true)) ∧
    (500 ≤ status →
      classifyStatus status = some (.scraping "blocked" status true)) ∧
    (400 ≤ status → status < 500 → status ≠ 429 →
      classifyStatus status = some (.scraping "blocked" status false)) ∧
    (∀ e, classifyStatus status = some e →
      (isRetryableError e = true ↔ (status = 429 ∨ 500 ≤ status))) ∧
    (∀ f m, isRetryableError (.validation f m) = false) ∧
    isRetryableError .ctxCanceled = false ∧
    isRetryableError .ctxDeadlineExceeded = false := by
  refine ⟨?_, ?_, ?_, ?_, fun f m => rfl, rfl, rfl⟩
  · intro h429
    subst h429
    rfl
  · intro h500
    unfold classifyStatus
    rw [if_pos (by omega), if_neg (by omega), if_pos (by omega)]
    have hd : decide (status ≥ 500) = true := by
      rw [decide_eq_true_eq]
      omega
    rw [hd]
  · intro h400 h500 h429
    unfold classifyStatus
    rw [if_pos (by omega), if_neg (by omega), if_pos (by omega)]
    have hd : decide (status ≥ 500) = false := by
      rw [decide_eq_false_iff_not]
      omega
    rw [hd]
  · intro e he
    unfold classifyStatus at he
    by_cases h200 : status ≠ 200
    · rw [if_pos h200] at he
      by_cases h429 : status = 429
      · rw [if_pos h429] at he
        obtain rfl : WorkerError.scraping "rate_limit" status true = e := by
          simpa using he
        simp only [isRetryableError]
        simp [h429]
      · rw [if_neg h429] at he
        by_cases h400 : status ≥ 400
        · rw [if_pos h400] at he
          obtain rfl : WorkerError.scraping "blocked" status (decide (status ≥ 500)) = e := by
            simpa using he
          simp only [isRetryableError, decide_eq_true_eq]
          constructor
          · intro h5
            exact Or.inr h5
          · rintro (h | h)
            · exact absurd h h429
            · exact h
        · rw [if_neg h400] at he
          simp at he
    · rw [if_neg h200] at he
      simp at he

/-- C7 witness: a 503 response is classified as a retryable error, and a 404
response as a non-retryable one. -/
theorem error_classification_correct_witness :
    classifyStatus 503 = some (.scraping "blocked" 503 true) ∧
    classifyStatus 404 = some (.scraping "blocked" 404 false) ∧
    (isRetryableError (.scraping "blocked" 503 true) = true ↔
      ((503 : Int) = 429 ∨ (500 : Int) ≤ 503)) :=
  ⟨(error_classification_correct 503).2.1 (by norm_num),
   (error_classification_correct 404).2.2.1 (by norm_num) (by norm_num) (by norm_num),
   (error_classification_correct 503).2.2.2.1 _
     ((error_classification_correct 503).2.1 (by norm_num))⟩

/-! ## Claim C8: every popped task yields exactly one published result -/

lemma ProcessTask_some_result_of_no_error (t : ScrapingTask)
    (outs : Nat → ScrapeOutcome) (canc : Nat → Bool)
    (h : (ProcessTask t outs canc).error = none) :
    ∃ r, (ProcessTask t outs canc).result = some r := by
  rcases hval : t.Validate with _ | msg
  · rcases hpar : ValidateParams t.params with _ | e
    · rw [ProcessTask_eq_run t outs canc hval hpar] at h ⊢
      rcases hex : (runAttempts outs canc none 0 (t.maxRetries + 1)).2.2
        with r | _ | last
      · exact ⟨r, rfl⟩
      · rw [hex] at h
        exact Option.noConfusion h
      · rw [hex] at h
        exact Option.noConfusion h
    · unfold ProcessTask at h
      rw [hval, hpar] at h
      simp at h
  · unfold ProcessTask at h
    rw [hval] at h
    simp at h

/-- C8: whenever the polling loop pops a task from the queue, exactly one
Result is published for it: on success the Worker's result with its taskID
set to the task's, on failure a failed Result carrying the error and the
originating task's task_id; nothing is published when no task was popped. -/
theorem processNextTask_publishes_once (t : ScrapingTask)
    (outs : Nat → ScrapeOutcome) (canc : Nat → Bool) :
    (processNextTask (.task t) outs canc).length = 1 ∧
    (∀ r ∈ processNextTask (.task t) outs canc, r.taskID = t.taskID) ∧
    (∀ e, (ProcessTask t outs canc).error = some e →
      processNextTask (.task t) outs canc =
        [{ taskID := t.taskID, status := .failed, jobsFound := 0,
           errorInfo := some e }]) ∧
    (∀ r, (ProcessTask t outs canc).result = some r →
      (ProcessTask t outs canc).error = none →
      processNextTask (.task t) outs canc = [{ r with taskID := t.taskID }]) ∧
    processNextTask .noTask outs canc = [] ∧
    processNextTask .popError outs canc = [] := by
  have hone : (processNextTask (.task t) outs canc).length = 1 ∧
      ∀ r ∈ processNextTask (.task t) outs canc, r.taskID = t.taskID := by
    simp only [processNextTask]
    rcases herr : (ProcessTask t outs canc).error with _ | e
    · obtain ⟨r, hr⟩ := ProcessTask_some_result_of_no_error t outs canc herr
      rw [hr]
      exact ⟨rfl, by intro x hx; simp at hx; rw [hx]⟩
    · exact ⟨rfl, by intro x hx; simp at hx; rw [hx]⟩
  refine ⟨hone.1, hone.2, ?_, ?_, rfl, rfl⟩
  · intro e herr
    simp only [processNextTask]
    rw [herr]
  · intro r hr herr
    simp only [processNextTask]
    rw [herr, hr]

/-- C8 witness: a concrete popped task that fails publishes exactly one
result bearing its task_id. -/
theorem processNextTask_publishes_once_witness :
    (processNextTask (.task exTask) exOutsRetry exCancNever).length = 1 ∧
    (∀ r ∈ processNextTask (.task exTask) exOutsRetry exCancNever,
      r.taskID = exTask.taskID) :=
  ⟨(processNextTask_publishes_once exTask exOutsRetry exCancNever).1,
   (processNextTask_publishes_once exTask exOutsRetry exCancNever).2.1⟩

/-! ## Claim C9: metrics snapshot semantics -/

/-- C9 counterexample: `Worker.GetMetrics` returns the pointer to the live
internal metrics (`return w.metrics`), so mutating the returned value DOES
change the worker's internal metrics state: writing `tasksProcessed = 99`
through the returned pointer makes the internal read see 99 instead of 0. -/
theorem worker_getMetrics_aliases_internal :
    exWorker.getMetrics = exWorker.metricsPtr ∧
    (exWorkerHeap.read exWorker.metricsPtr).tasksProcessed = 0 ∧
    ((exWorkerHeap.write exWorker.getMetrics wmMutated).read
        exWorker.metricsPtr).tasksProcessed = 99 := by
  refine ⟨rfl, rfl, rfl⟩

/-- C9 (amended): `Orchestrator.GetMetrics` does return a snapshot copy —
its pointer is fresh, writing through it leaves the internal metrics
unchanged, and a later `updateMetrics` leaves the snapshot unchanged — but
`Worker.GetMetrics` returns the internal metrics object itself, so a write
through the returned value mutates the worker's internal state. -/
theorem metrics_snapshot_semantics (h : Heap OrchestratorMetrics)
    (o : OrchObj) (v : OrchestratorMetrics)
    (f : OrchestratorMetrics → OrchestratorMetrics)
    (hp : o.metricsPtr < h.next)
    (hw : Heap WorkerMetrics) (w : WorkerObj) (wv : WorkerMetrics) :
    (((o.getMetrics h).1.write (o.getMetrics h).2 v).read o.metricsPtr
        = h.read o.metricsPtr) ∧
    ((OrchObj.updateMetrics o (o.getMetrics h).1 f).read (o.getMetrics h).2
        = h.read o.metricsPtr) ∧
    ((hw.write w.getMetrics wv).read w.metricsPtr = wv) := by
  have hne : o.metricsPtr ≠ h.next := by omega
  refine ⟨?_, ?_, ?_⟩
  · simp only [OrchObj.getMetrics, Heap.alloc, Heap.write, Heap.read]
    rw [if_neg hne, if_neg hne]
  · simp only [OrchObj.getMetrics, OrchObj.updateMetrics, Heap.alloc,
      Heap.write, Heap.read]
    rw [if_neg (by omega : h.next ≠ o.metricsPtr)]
    simp
  · simp only [WorkerObj.getMetrics, Heap.write, Heap.read]
    simp

/-- C9 witness: the snapshot semantics evaluated on concrete heaps. -/
theorem metrics_snapshot_semantics_witness :
    (((exOrch.getMetrics exOrchHeap).1.write (exOrch.getMetrics exOrchHeap).2
        omMutated).read exOrch.metricsPtr = exOrchHeap.read exOrch.metricsPtr) ∧
    ((OrchObj.updateMetrics exOrch (exOrch.getMetrics exOrchHeap).1
        (fun m => { m with tasksFailed := m.tasksFailed + 1 })).read
          (exOrch.getMetrics exOrchHeap).2
        = exOrchHeap.read exOrch.metricsPtr) ∧
    ((exWorkerHeap.write exWorker.getMetrics wmMutated).read
        exWorker.metricsPtr = wmMutated) :=
  metrics_snapshot_semantics exOrchHeap exOrch omMutated
    (fun m => { m with tasksFailed := m.tasksFailed + 1 }) (by decide)
    exWorkerHeap exWorker wmMutated

end JobSpy
